import Mathlib

/-!
Shallow embedding of the ApplyFlow email-processing pipeline.

Embedded source files:
- `src/lib/email/status-transitions.ts` (Transition Engine)
- `src/lib/email/ats-patterns.ts` (domain extraction, ATS company extraction)
- `src/lib/email/matching.ts` (Matcher)
- `src/lib/llm/classify.ts` (Classifier wrapper)
- `src/inngest/functions/process-email.ts` (Orchestrator `processEmail`),
  together with the `status_history` auto-insert trigger of
  `supabase/migrations/00001_initial_schema.sql`.

Modelling conventions: JS numbers used as confidence scores become `ℚ`;
timestamps become `Nat`; database rows become structures collected in lists;
uuid generation becomes a `nextId` counter; the external LLM call of the
Classifier becomes an explicit `Except` argument.  JS regular expressions are
embedded through a small backtracking matcher (`RE`) whose alternation order,
greedy/lazy quantifier order and leftmost-match rule follow the JS semantics;
every quantifier appearing in the source applies to a single character class,
which the `RE.many` constructor captures directly.
-/

namespace ApplyFlow

/-! ### status-transitions.ts -/

/-- Email classification categories (`EmailClassification` union type). -/
inductive EmailClassification where
  | REJECTION
  | INTERVIEW_REQUEST
  | OFFER
  | SCREENING_INVITE
  | ASSESSMENT_REQUEST
  | GENERIC_UPDATE
  | UNRELATED
deriving DecidableEq, Repr

/-- Application lifecycle statuses (`ApplicationStatus` union type). -/
inductive ApplicationStatus where
  | SAVED
  | APPLIED
  | SCREENING
  | INTERVIEWING
  | OFFER
  | ACCEPTED
  | REJECTED
  | WITHDRAWN
  | GHOSTED
deriving DecidableEq, Repr

open EmailClassification ApplicationStatus

/-- The `CLASSIFICATION_TO_STATUS` record: category to target status (or null). -/
def CLASSIFICATION_TO_STATUS : EmailClassification → Option ApplicationStatus
  | REJECTION => some REJECTED
  | INTERVIEW_REQUEST => some INTERVIEWING
  | EmailClassification.OFFER => some ApplicationStatus.OFFER
  | SCREENING_INVITE => some SCREENING
  | ASSESSMENT_REQUEST => some SCREENING
  | GENERIC_UPDATE => none
  | UNRELATED => none

/-- The `VALID_TRANSITIONS` record: allowed outgoing edges per status. -/
def VALID_TRANSITIONS : ApplicationStatus → List ApplicationStatus
  | SAVED => [APPLIED, REJECTED, WITHDRAWN]
  | APPLIED => [SCREENING, INTERVIEWING, ApplicationStatus.OFFER, REJECTED, WITHDRAWN, GHOSTED]
  | SCREENING => [INTERVIEWING, ApplicationStatus.OFFER, REJECTED, WITHDRAWN, GHOSTED]
  | INTERVIEWING => [ApplicationStatus.OFFER, REJECTED, WITHDRAWN, GHOSTED]
  | ApplicationStatus.OFFER => [ACCEPTED, REJECTED, WITHDRAWN]
  | ACCEPTED => []
  | REJECTED => []
  | WITHDRAWN => []
  | GHOSTED => [SCREENING, INTERVIEWING, REJECTED]

/-- The `CONFIDENCE_THRESHOLDS` constant object. -/
structure ConfidenceThresholds where
  AUTO_UPDATE : ℚ
  FLAG_FOR_REVIEW : ℚ
  MANUAL_ONLY : ℚ
deriving DecidableEq, Repr

/-- Threshold values as in the source: 0.9 / 0.7 / 0.0. -/
def CONFIDENCE_THRESHOLDS : ConfidenceThresholds :=
  { AUTO_UPDATE := mkRat 9 10, FLAG_FOR_REVIEW := mkRat 7 10, MANUAL_ONLY := 0 }

/-- The `TransitionResult` interface. -/
structure TransitionResult where
  shouldUpdate : Bool
  newStatus : Option ApplicationStatus
  reason : String
  needsReview : Bool
deriving DecidableEq, Repr

/-- The `getStatusTransition` function.  Branch order follows the source:
null target, then invalid transition, then the confidence thresholds. -/
def getStatusTransition (classification : EmailClassification) (confidence : ℚ)
    (currentStatus : ApplicationStatus) : TransitionResult :=
  match CLASSIFICATION_TO_STATUS classification with
  | none =>
      { shouldUpdate := false
        newStatus := none
        reason := "Classification does not trigger status change"
        needsReview := false }
  | some targetStatus =>
      let allowedTransitions := VALID_TRANSITIONS currentStatus
      if targetStatus ∈ allowedTransitions then
        if confidence < CONFIDENCE_THRESHOLDS.FLAG_FOR_REVIEW then
          { shouldUpdate := false
            newStatus := some targetStatus
            reason := "Confidence below threshold"
            needsReview := true }
        else
          { shouldUpdate := true
            newStatus := some targetStatus
            reason := "Auto-updating"
            needsReview := decide (confidence < CONFIDENCE_THRESHOLDS.AUTO_UPDATE) }
      else
        { shouldUpdate := false
          newStatus := none
          reason := "Invalid transition"
          needsReview := true }

/-- The `getTriggerType` function (returns the `trigger_type` string for
status history rows): `email_auto` iff confidence is at least the
FLAG_FOR_REVIEW threshold. -/
def getTriggerType (confidence : ℚ) : String :=
  if CONFIDENCE_THRESHOLDS.FLAG_FOR_REVIEW ≤ confidence then "email_auto" else "email_manual"

/-! ### A small backtracking matcher for the JS regular expressions in the source

Every quantifier in the source's patterns applies to a single character class
(`.`, `\s`), which `RE.many` captures directly, and every capture group is
exactly the lazy `(.+?)`, handled by `capHere`.  Alternation tries branches in
source order; greedy quantifiers try longest first, lazy ones shortest first;
unanchored search tries start positions left to right — the JS semantics. -/

/-- JS `\s` character class (ECMAScript WhiteSpace and LineTerminator). -/
def isSpaceJS (c : Char) : Bool :=
  [' ', '\t', '\n', '\u000B', '\u000C', '\r', '\u00A0', '\u1680',
   '\u2000', '\u2001', '\u2002', '\u2003', '\u2004', '\u2005', '\u2006',
   '\u2007', '\u2008', '\u2009', '\u200A', '\u2028', '\u2029', '\u202F',
   '\u205F', '\u3000', '\uFEFF'].contains c

/-- JS `.` (without the `s` flag): any character except a line terminator. -/
def dotJS (c : Char) : Bool :=
  !(c == '\n' || c == '\r' || c == '\u2028' || c == '\u2029')

/-- Strip a case-insensitive literal from the front of the input
(ASCII case folding, which covers every literal in the source). -/
def stripCI : List Char → List Char → Option (List Char)
  | [], s => some s
  | _ :: _, [] => none
  | p :: ps, c :: cs => if p.toLower == c.toLower then stripCI ps cs else none

/-- Length of the maximal run of characters satisfying the class. -/
def runLen (p : Char → Bool) : List Char → Nat
  | [] => 0
  | c :: cs => if p c then runLen p cs + 1 else 0

/-- Regular-expression fragments used by the source's patterns. -/
inductive RE where
  | lit : List Char → RE
  | cls : (Char → Bool) → RE
  | many : Bool → Nat → (Char → Bool) → RE
  | seq : RE → RE → RE
  | alt : RE → RE → RE
  | eos : RE

/-- Backtracking matcher in continuation style.  `many lazy min p` tries
repetition counts shortest-first when lazy, longest-first when greedy. -/
def reMatch : RE → List Char → (List Char → Option (List Char)) → Option (List Char)
  | .lit l, s, k =>
      match stripCI l s with
      | some r => k r
      | none => none
  | .cls p, s, k =>
      match s with
      | c :: r => if p c then k r else none
      | [] => none
  | .many lz mn p, s, k =>
      let run := runLen p s
      if mn ≤ run then
        let counts := List.range' mn (run - mn + 1)
        let order := if lz then counts else counts.reverse
        order.findSome? (fun n => k (s.drop n))
      else none
  | .seq a b, s, k => reMatch a s (fun r => reMatch b r k)
  | .alt a b, s, k =>
      match reMatch a s k with
      | some v => some v
      | none => reMatch b s k
  | .eos, s, k => if s.isEmpty then k s else none

/-- A source pattern: regex = `pre (.+?) post`, optionally `^`-anchored. -/
structure CapturePat where
  anchored : Bool
  pre : RE
  post : RE

/-- Try the pattern at one start position: run `pre`, then grow the lazy
capture one `.`-matching character at a time, accepting at the first length
where `post` matches. -/
def capHere (pat : CapturePat) (s : List Char) : Option (List Char) :=
  reMatch pat.pre s (fun rest =>
    let run := runLen dotJS rest
    (List.range' 1 run).findSome? (fun m =>
      match reMatch pat.post (rest.drop m) (fun r => some r) with
      | some _ => some (rest.take m)
      | none => none))

/-- Leftmost-match search (JS unanchored semantics): earliest start wins. -/
def execPat (pat : CapturePat) (s : List Char) : Option (List Char) :=
  if pat.anchored then capHere pat s
  else (List.tails s).findSome? (capHere pat)

/-- Case-insensitive literal fragment from a string. -/
def reStr (s : String) : RE := .lit s.toList

/-- JS `String.prototype.trim`. -/
def trimJS (s : List Char) : List Char :=
  ((s.dropWhile (fun c => isSpaceJS c)).reverse.dropWhile (fun c => isSpaceJS c)).reverse

/-- JS `[-–]` character class. -/
def isDash (c : Char) : Bool := c == '-' || c == '–'

/-- JS `[-–:]` character class. -/
def isDashColon (c : Char) : Bool := c == '-' || c == '–' || c == ':'

/-- Fragment `(?:\s*[-–]|$)`. -/
def tailDashEnd : RE := .alt (.seq (.many false 0 isSpaceJS) (.cls isDash)) .eos

/-- Fragment `(?:\s*[-–:]|$)`. -/
def tailDashColonEnd : RE := .alt (.seq (.many false 0 isSpaceJS) (.cls isDashColon)) .eos

/-- Fragment `\s+`. -/
def wsPlus : RE := .many false 1 isSpaceJS

/-- Fragment `\s*`. -/
def wsStar : RE := .many false 0 isSpaceJS

/-! ### ats-patterns.ts -/

/-- The `ParsedEmail` interface (`receivedAt` as an integer timestamp). -/
structure ParsedEmail where
  «from» : String
  fromName : Option String
  subject : String
  body : String
  receivedAt : Nat
deriving DecidableEq, Repr

/-- greenhouse.io subject pattern `(?:application to|applying to|applied to)\s+(.+?)(?:\s*[-–]|$)/i`. -/
def ghSubjectPat : CapturePat :=
  { anchored := false
    pre := .seq (.alt (reStr "application to") (.alt (reStr "applying to") (reStr "applied to"))) wsPlus
    post := tailDashEnd }

/-- greenhouse.io body pattern `interest in\s+(.+?)(?:\.|\s+and)/i`. -/
def ghBodyPat : CapturePat :=
  { anchored := false
    pre := .seq (reStr "interest in") wsPlus
    post := .alt (.cls (fun c => c == '.')) (.seq wsPlus (reStr "and")) }

/-- The `greenhouse.io` entry of `ATS_PATTERNS`. -/
def greenhouseParse (email : ParsedEmail) : Option String :=
  match execPat ghSubjectPat email.subject.toList with
  | some m => some (String.mk (trimJS m))
  | none =>
      match execPat ghBodyPat email.body.toList with
      | some m => some (String.mk (trimJS m))
      | none => none

/-- lever.co from-name pattern `(.+?)\s+(?:via|through)\s+Lever/i`. -/
def leverFromPat : CapturePat :=
  { anchored := false
    pre := .lit []
    post := .seq wsPlus (.seq (.alt (reStr "via") (reStr "through")) (.seq wsPlus (reStr "Lever"))) }

/-- lever.co subject pattern `^(.+?)\s*[-–]\s*.+application/i`. -/
def leverSubjectPat : CapturePat :=
  { anchored := true
    pre := .lit []
    post := .seq wsStar (.seq (.cls isDash) (.seq wsStar (.seq (.many false 1 dotJS) (reStr "application")))) }

/-- The `lever.co` entry of `ATS_PATTERNS`. -/
def leverParse (email : ParsedEmail) : Option String :=
  let fromMatch :=
    match email.fromName with
    | some fn => execPat leverFromPat fn.toList
    | none => none
  match fromMatch with
  | some m => some (String.mk (trimJS m))
  | none =>
      match execPat leverSubjectPat email.subject.toList with
      | some m => some (String.mk (trimJS m))
      | none => none

/-- ashbyhq.com subject pattern `^(.+?):\s*.+(?:application|update)/i`. -/
def ashbySubjectPat : CapturePat :=
  { anchored := true
    pre := .lit []
    post := .seq (.cls (fun c => c == ':'))
      (.seq wsStar (.seq (.many false 1 dotJS) (.alt (reStr "application") (reStr "update")))) }

/-- The `ashbyhq.com` entry of `ATS_PATTERNS`. -/
def ashbyParse (email : ParsedEmail) : Option String :=
  (execPat ashbySubjectPat email.subject.toList).map (fun m => String.mk (trimJS m))

/-- jobvite.com subject pattern `application\s+(?:with|to|at)\s+(.+?)(?:\s*[-–]|$)/i`. -/
def jobviteSubjectPat : CapturePat :=
  { anchored := false
    pre := .seq (reStr "application")
      (.seq wsPlus (.seq (.alt (reStr "with") (.alt (reStr "to") (reStr "at"))) wsPlus))
    post := tailDashEnd }

/-- The `jobvite.com` entry of `ATS_PATTERNS`. -/
def jobviteParse (email : ParsedEmail) : Option String :=
  (execPat jobviteSubjectPat email.subject.toList).map (fun m => String.mk (trimJS m))

/-- workday.com / myworkdayjobs.com subject pattern `^(.+?):\s*your\s+application/i`. -/
def workdaySubjectPat : CapturePat :=
  { anchored := true
    pre := .lit []
    post := .seq (.cls (fun c => c == ':'))
      (.seq wsStar (.seq (reStr "your") (.seq wsPlus (reStr "application")))) }

/-- The `workday.com` entry of `ATS_PATTERNS`. -/
def workdayParse (email : ParsedEmail) : Option String :=
  (execPat workdaySubjectPat email.subject.toList).map (fun m => String.mk (trimJS m))

/-- The `myworkdayjobs.com` entry of `ATS_PATTERNS` (same pattern as workday.com). -/
def myworkdayParse (email : ParsedEmail) : Option String :=
  (execPat workdaySubjectPat email.subject.toList).map (fun m => String.mk (trimJS m))

/-- icims.com subject pattern `applying\s+to\s+(.+?)(?:\s*[-–]|$)/i`. -/
def icimsSubjectPat : CapturePat :=
  { anchored := false
    pre := .seq (reStr "applying") (.seq wsPlus (.seq (reStr "to") wsPlus))
    post := tailDashEnd }

/-- The `icims.com` entry of `ATS_PATTERNS`. -/
def icimsParse (email : ParsedEmail) : Option String :=
  (execPat icimsSubjectPat email.subject.toList).map (fun m => String.mk (trimJS m))

/-- smartrecruiters.com subject pattern `application\s+at\s+(.+?)(?:\s*[-–]|$)/i`. -/
def smartSubjectPat : CapturePat :=
  { anchored := false
    pre := .seq (reStr "application") (.seq wsPlus (.seq (reStr "at") wsPlus))
    post := tailDashEnd }

/-- The `smartrecruiters.com` entry of `ATS_PATTERNS`. -/
def smartParse (email : ParsedEmail) : Option String :=
  (execPat smartSubjectPat email.subject.toList).map (fun m => String.mk (trimJS m))

/-- linkedin.com subject pattern `(?:sent to|applied to|application.*to)\s+(.+?)(?:\s*[-–]|$)/i`. -/
def linkedinSubjectPat : CapturePat :=
  { anchored := false
    pre := .seq (.alt (reStr "sent to") (.alt (reStr "applied to")
      (.seq (reStr "application") (.seq (.many false 0 dotJS) (reStr "to"))))) wsPlus
    post := tailDashEnd }

/-- The `linkedin.com` entry of `ATS_PATTERNS`. -/
def linkedinParse (email : ParsedEmail) : Option String :=
  (execPat linkedinSubjectPat email.subject.toList).map (fun m => String.mk (trimJS m))

/-- The `ATS_PATTERNS` record, in object-literal insertion order. -/
def ATS_PATTERNS : List (String × (ParsedEmail → Option String)) :=
  [("greenhouse.io", greenhouseParse),
   ("lever.co", leverParse),
   ("ashbyhq.com", ashbyParse),
   ("jobvite.com", jobviteParse),
   ("workday.com", workdayParse),
   ("myworkdayjobs.com", myworkdayParse),
   ("icims.com", icimsParse),
   ("smartrecruiters.com", smartParse),
   ("linkedin.com", linkedinParse)]

/-- Suffix after the last `@`, when nonempty: the semantics of the source
regex `/@([^@]+)$/` used by `extractDomain`. -/
def lastAtSuffix : List Char → Option (List Char)
  | [] => none
  | c :: rest =>
      match lastAtSuffix rest with
      | some s => some s
      | none => if c == '@' && !rest.isEmpty then some rest else none

/-- The `extractDomain` function: match `/@([^@]+)$/`, lower-case the
capture, empty string when there is no match. -/
def extractDomain (email : String) : String :=
  match lastAtSuffix email.toList with
  | some suf => String.mk (suf.map Char.toLower)
  | none => ""

/-- Exact (case-sensitive) list-prefix test, for JS `String.prototype.includes`. -/
def listStarts : List Char → List Char → Bool
  | [], _ => true
  | _ :: _, [] => false
  | p :: ps, c :: cs => p == c && listStarts ps cs

/-- JS `String.prototype.includes` (case-sensitive substring containment). -/
def jsIncludes (hay sub : String) : Bool :=
  (List.tails hay.toList).any (fun t => listStarts sub.toList t)

/-- The `isATSEmail` function. -/
def isATSEmail (email : ParsedEmail) : Bool :=
  let domain := extractDomain email.«from»
  ATS_PATTERNS.any (fun p => jsIncludes domain p.1)

/-- The `extractCompanyFromATS` function: first provider whose domain key is
contained in the sender domain and whose parser yields a truthy (non-empty)
company wins; otherwise null. -/
def extractCompanyFromATS (email : ParsedEmail) : Option String :=
  let domain := extractDomain email.«from»
  ATS_PATTERNS.findSome? (fun p =>
    if jsIncludes domain p.1 then
      match p.2 email with
      | some company => if company == "" then none else some company
      | none => none
    else none)

/-- JS `\w` character class. -/
def isWordChar (c : Char) : Bool :=
  ('a' ≤ c && c ≤ 'z') || ('A' ≤ c && c ≤ 'Z') || ('0' ≤ c && c ≤ '9') || c == '_'

/-- Match one token of the removal regex
`[,.]|inc|llc|corp|corporation|ltd|limited|co\b` (case-insensitive) at the
head of the input, returning the matched length.  Alternatives are tried in
source order, as JS alternation does. -/
def tokenAt (s : List Char) : Option Nat :=
  match s with
  | [] => none
  | c :: _ =>
      if c == ',' || c == '.' then some 1
      else if (stripCI "inc".toList s).isSome then some 3
      else if (stripCI "llc".toList s).isSome then some 3
      else if (stripCI "corp".toList s).isSome then some 4
      else if (stripCI "corporation".toList s).isSome then some 11
      else if (stripCI "ltd".toList s).isSome then some 3
      else if (stripCI "limited".toList s).isSome then some 7
      else if (stripCI "co".toList s).isSome then
        match s.drop 2 with
        | [] => some 2
        | d :: _ => if isWordChar d then none else some 2
      else none

/-- Global replacement of the tokens above by the empty string, scanning left
to right and resuming after each match.  Fuel is the input length; every step
consumes at least one character. -/
def stripTokensF : Nat → List Char → List Char
  | 0, s => s
  | _ + 1, [] => []
  | fuel + 1, c :: rest =>
      match tokenAt (c :: rest) with
      | some n => stripTokensF fuel ((c :: rest).drop n)
      | none => c :: stripTokensF fuel rest

/-- Collapse runs of spaces to a single space. -/
def squeezeSpaces : List Char → List Char
  | [] => []
  | [c] => [c]
  | c :: d :: rest =>
      if c == ' ' && d == ' ' then squeezeSpaces (d :: rest)
      else c :: squeezeSpaces (d :: rest)

/-- The `normalizeCompanyName` function: lower-case, strip the corporate
suffix tokens, collapse whitespace, trim. -/
def normalizeCompanyName (name : String) : String :=
  let lowered := name.toList.map Char.toLower
  let stripped := stripTokensF lowered.length lowered
  let collapsed := squeezeSpaces (stripped.map (fun c => if isSpaceJS c then ' ' else c))
  String.mk (trimJS collapsed)

/-! ### matching.ts -/

/-- A row of the `applications` table, with the columns this pipeline reads. -/
structure ApplicationRow where
  id : Nat
  user_id : Nat
  company_name : String
  job_title : String
  status : ApplicationStatus
  created_at : Nat
deriving DecidableEq, Repr

/-- Postgres `ILIKE` pattern matching: case-insensitive, `%` and `_`
wildcards, backslash escaping the next character. -/
def ilikeMatch : List Char → List Char → Bool
  | [], s => s.isEmpty
  | '%' :: ps, s => (List.tails s).any (fun t => ilikeMatch ps t)
  | '_' :: ps, s =>
      match s with
      | _ :: cs => ilikeMatch ps cs
      | [] => false
  | '\\' :: p :: ps, s =>
      match s with
      | c :: cs => p.toLower == c.toLower && ilikeMatch ps cs
      | [] => false
  | ['\\'], _ => false
  | p :: ps, s =>
      match s with
      | c :: cs => p.toLower == c.toLower && ilikeMatch ps cs
      | [] => false

/-- Model of `ORDER BY created_at DESC` (insertion sort; ties keep list order,
which the database leaves unspecified). -/
def sortByCreatedDesc (l : List ApplicationRow) : List ApplicationRow :=
  List.insertionSort (fun a b => b.created_at ≤ a.created_at) l

/-- Model of the supabase query shape used by the matcher: filter by owner and
an ILIKE pattern on `company_name`, order by `created_at` descending, limit 1,
`.single()` (with zero rows `.single()` errors and the caller sees null). -/
def queryByCompanyPattern (apps : List ApplicationRow) (userId : Nat) (pattern : String) :
    Option ApplicationRow :=
  (sortByCreatedDesc (apps.filter (fun a => a.user_id == userId &&
    ilikeMatch pattern.toList a.company_name.toList))).head?

/-- The `findApplicationByCompanyName` function: exact ILIKE match first
(the raw name as the pattern), then a partial match on the normalized name. -/
def findApplicationByCompanyName (apps : List ApplicationRow) (userId : Nat)
    (companyName : String) : Option ApplicationRow :=
  let normalized := normalizeCompanyName companyName
  match queryByCompanyPattern apps userId companyName with
  | some exactMatch => some exactMatch
  | none => queryByCompanyPattern apps userId ("%" ++ normalized ++ "%")

/-- The ATS domains skipped by the direct-domain strategy. -/
def atsDomains : List String :=
  ["greenhouse.io", "lever.co", "ashbyhq.com", "jobvite.com", "workday.com", "icims.com"]

/-- The subdomain tokens recognized by `findApplicationByDomain`. -/
def subdomainHeads : List String := ["careers", "jobs", "recruiting", "talent", "hr"]

/-- JS `String.prototype.split` with a single-character separator. -/
def splitOnChar (sep : Char) : List Char → List (List Char)
  | [] => [[]]
  | c :: rest =>
      let r := splitOnChar sep rest
      if c == sep then [] :: r
      else
        match r with
        | h :: t => (c :: h) :: t
        | [] => [[c]]

/-- The `findApplicationByDomain` function: skip ATS domains, derive a company
slug from the domain (second-to-last dot-separated part when there are at
least two), and partial-ILIKE it against tracked company names. -/
def findApplicationByDomain (apps : List ApplicationRow) (userId : Nat) (domain : String) :
    Option ApplicationRow :=
  if atsDomains.any (fun ats => jsIncludes domain ats) then none
  else
    let parts := splitOnChar '.' domain.toList
    let companySlug :=
      if 2 ≤ parts.length then (parts.get? (parts.length - 2)).getD []
      else (parts.get? 0).getD []
    -- the source re-assigns the same expression when the first part is a
    -- `careers.`-style subdomain token and there are at least three parts
    let companySlug :=
      if subdomainHeads.any (fun p => p.toList == (parts.get? 0).getD []) && 3 ≤ parts.length
      then (parts.get? (parts.length - 2)).getD []
      else companySlug
    queryByCompanyPattern apps userId ("%" ++ String.mk companySlug ++ "%")

/-- Subject pattern 1 `(?:from|at|with)\s+(.+?)(?:\s*[-–:]|$)/i`. -/
def subjPat1 : CapturePat :=
  { anchored := false
    pre := .seq (.alt (reStr "from") (.alt (reStr "at") (reStr "with"))) wsPlus
    post := tailDashColonEnd }

/-- Subject pattern 2 `^(.+?)(?:\s*[-–:])\s*(?:application|interview|offer)/i`. -/
def subjPat2 : CapturePat :=
  { anchored := true
    pre := .lit []
    post := .seq wsStar (.seq (.cls isDashColon)
      (.seq wsStar (.alt (reStr "application") (.alt (reStr "interview") (reStr "offer"))))) }

/-- Subject pattern 3 `(?:application|interview|offer).*(?:at|with|from)\s+(.+?)(?:\s*[-–]|$)/i`. -/
def subjPat3 : CapturePat :=
  { anchored := false
    pre := .seq (.alt (reStr "application") (.alt (reStr "interview") (reStr "offer")))
      (.seq (.many false 0 dotJS) (.seq (.alt (reStr "at") (.alt (reStr "with") (reStr "from"))) wsPlus))
    post := tailDashEnd }

/-- Case-insensitive membership in the false-positive list `^(your|the|a|an)$/i`. -/
def stopWordCI (s : String) : Bool :=
  let l := s.toList.map Char.toLower
  l == "your".toList || l == "the".toList || l == "a".toList || l == "an".toList

/-- The `extractCompanyFromSubject` function: try the three patterns in
order; a captured company is returned only if it passes the length and
stop-word filters, otherwise the next pattern is tried. -/
def extractCompanyFromSubject (subject : String) : Option String :=
  [subjPat1, subjPat2, subjPat3].findSome? (fun pat =>
    match execPat pat subject.toList with
    | some m =>
        let company := String.mk (trimJS m)
        if 2 < company.length && company.length < 50 && !(stopWordCI company) then some company
        else none
    | none => none)

/-- The `matchType` union of `MatchResult`. -/
inductive MatchType where
  | ats
  | domain
  | fuzzy
  | none
deriving DecidableEq, Repr

/-- The `MatchResult` interface. -/
structure MatchResult where
  applicationId : Option Nat
  companyName : Option String
  confidence : ℚ
  matchType : MatchType
deriving DecidableEq, Repr

/-- The `matchEmailToApplication` function: ATS extraction, then direct
domain match, then subject fuzzy match, then no match. -/
def matchEmailToApplication (apps : List ApplicationRow) (userId : Nat)
    (email : ParsedEmail) : MatchResult :=
  let atsCompany := extractCompanyFromATS email
  let atsResult : Option MatchResult :=
    match atsCompany with
    | some c =>
        match findApplicationByCompanyName apps userId c with
        | some m => some { applicationId := some m.id, companyName := some c,
                           confidence := mkRat 9 10, matchType := .ats }
        | none => Option.none
    | none => Option.none
  match atsResult with
  | some r => r
  | none =>
      match findApplicationByDomain apps userId (extractDomain email.«from») with
      | some m =>
          { applicationId := some m.id, companyName := some m.company_name,
            confidence := mkRat 95 100, matchType := .domain }
      | none =>
          let extractedCompany := extractCompanyFromSubject email.subject
          let fuzzyResult : Option MatchResult :=
            match extractedCompany with
            | some c =>
                match findApplicationByCompanyName apps userId c with
                | some m => some { applicationId := some m.id, companyName := some c,
                                   confidence := mkRat 7 10, matchType := .fuzzy }
                | none => Option.none
            | none => Option.none
          match fuzzyResult with
          | some r => r
          | none =>
              { applicationId := Option.none,
                companyName := atsCompany.orElse (fun _ => extractedCompany),
                confidence := 0, matchType := .none }

/-- The status filter of `getSuggestedApplications`
(`.in('status', ['APPLIED', 'SCREENING', 'INTERVIEWING'])`). -/
def suggestedStatuses : List ApplicationStatus := [APPLIED, SCREENING, INTERVIEWING]

/-- The `getSuggestedApplications` function: the user's applications in one
of the three suggested statuses, most recently created first, up to `limit`
rows (the source's default limit is 5). -/
def getSuggestedApplications (apps : List ApplicationRow) (userId : Nat) (limit : Nat) :
    List ApplicationRow :=
  (sortByCreatedDesc (apps.filter (fun a => a.user_id == userId &&
    suggestedStatuses.contains a.status))).take limit

/-! ### classify.ts -/

/-- The optional `extractedData` object of the classification schema. -/
structure ExtractedData where
  interviewDate : Option String
  interviewTime : Option String
  deadline : Option String
  nextSteps : Option String
deriving DecidableEq, Repr

/-- The empty object `{}` used when `extractedData` is absent. -/
def emptyExtractedData : ExtractedData :=
  { interviewDate := none, interviewTime := none, deadline := none, nextSteps := none }

/-- The `ClassificationResult` type inferred from the zod schema. -/
structure ClassificationResult where
  type : EmailClassification
  confidence : ℚ
  reasoning : String
  extractedData : Option ExtractedData
deriving DecidableEq, Repr

/-- The safe default returned by the catch block of `classifyEmail`. -/
def defaultClassification : ClassificationResult :=
  { type := GENERIC_UPDATE
    confidence := mkRat 1 2
    reasoning := "Classification failed, defaulting to generic update"
    extractedData := none }

/-- The `classifyEmail` function.  The external `generateObject` call is
modelled by its outcome: `.ok` carries a schema-valid structured object,
`.error` any failure (timeout, provider error, schema-invalid output).  The
source wraps the call in try/catch and maps every failure to the safe
default, so the function is total and never propagates an error. -/
def classifyEmail (modelOutcome : Except String ClassificationResult) : ClassificationResult :=
  match modelOutcome with
  | .ok object => object
  | .error _ => defaultClassification

/-! ### process-email.ts (Orchestrator) plus the status_history trigger -/

/-- A row of `application_emails`. -/
structure EmailRow where
  id : Nat
  user_id : Nat
  application_id : Option Nat
  from_address : String
  from_name : Option String
  subject : String
  body_preview : String
  received_at : Nat
  classification : EmailClassification
  classification_confidence : ℚ
  extracted_data : ExtractedData
deriving DecidableEq, Repr

/-- A row of `unmatched_emails`. -/
structure UnmatchedRow where
  id : Nat
  user_id : Nat
  email_id : Nat
  suggested_application_ids : List Nat
  status : String
deriving DecidableEq, Repr

/-- A row of `status_history` (`trigger_type` is TEXT in the schema). -/
structure HistoryRow where
  id : Nat
  application_id : Nat
  from_status : Option ApplicationStatus
  to_status : ApplicationStatus
  trigger_type : String
  trigger_email_id : Option Nat
  created_at : Nat
deriving DecidableEq, Repr

/-- The database state the pipeline touches; `nextId` models uuid generation. -/
structure DB where
  applications : List ApplicationRow
  application_emails : List EmailRow
  unmatched_emails : List UnmatchedRow
  status_history : List HistoryRow
  nextId : Nat
deriving DecidableEq, Repr

/-- Model of `ORDER BY created_at DESC` on `status_history`. -/
def sortHistoryByCreatedDesc (l : List HistoryRow) : List HistoryRow :=
  List.insertionSort (fun a b => b.created_at ≤ a.created_at) l

/-- Step `create-email-record`: a plain INSERT into `application_emails` —
no upsert key and no natural-key guard, so every execution appends a new
row (the schema has no message-identifier column or unique constraint). -/
def stepCreateEmailRecord (db : DB) (userId : Nat) (email : ParsedEmail)
    (cls : ClassificationResult) (applicationId : Option Nat) : DB × EmailRow :=
  let row : EmailRow :=
    { id := db.nextId
      user_id := userId
      application_id := applicationId
      from_address := email.«from»
      from_name := email.fromName
      subject := email.subject
      body_preview := email.body.take 500
      received_at := email.receivedAt
      classification := cls.type
      classification_confidence := cls.confidence
      extracted_data := cls.extractedData.getD emptyExtractedData }
  ({ db with application_emails := db.application_emails ++ [row], nextId := db.nextId + 1 }, row)

/-- Step `create-unmatched-record`: compute suggestions (limit 5) and INSERT
an `unmatched_emails` row with status `pending`. -/
def stepCreateUnmatchedRecord (db : DB) (userId : Nat) (emailId : Nat) : DB :=
  let suggestions := getSuggestedApplications db.applications userId 5
  let row : UnmatchedRow :=
    { id := db.nextId
      user_id := userId
      email_id := emailId
      suggested_application_ids := suggestions.map (fun s => s.id)
      status := "pending" }
  { db with unmatched_emails := db.unmatched_emails ++ [row], nextId := db.nextId + 1 }

/-- Step `get-application`: SELECT by id, `.single()`. -/
def stepGetApplication (db : DB) (applicationId : Nat) : Option ApplicationRow :=
  db.applications.find? (fun a => a.id == applicationId)

/-- Step `update-application-status`:
`UPDATE applications SET status = newStatus WHERE id = applicationId` — the
WHERE clause carries only the id, with no optimistic precondition on the
status previously read by `get-application`.  The `create_status_history`
database trigger (migration 00001) then inserts, for each updated row whose
status actually changed, a history row with trigger_type `manual`; finally the
step patches the most recent history row of the application with the email
trigger type and the triggering email id. -/
def stepUpdateApplicationStatus (db : DB) (applicationId : Nat)
    (newStatus : ApplicationStatus) (confidence : ℚ) (emailId : Nat) (t : Nat) : DB :=
  let changedRows := db.applications.filter (fun a => a.id == applicationId && a.status != newStatus)
  let apps := db.applications.map (fun a =>
    if a.id == applicationId then { a with status := newStatus } else a)
  let newHist := changedRows.enum.map (fun p =>
    { id := db.nextId + p.1
      application_id := applicationId
      from_status := some p.2.status
      to_status := newStatus
      trigger_type := "manual"
      trigger_email_id := none
      created_at := t : HistoryRow })
  let db1 : DB :=
    { db with applications := apps
              status_history := db.status_history ++ newHist
              nextId := db.nextId + changedRows.length }
  match (sortHistoryByCreatedDesc (db1.status_history.filter
      (fun h => h.application_id == applicationId))).head? with
  | some latest =>
      { db1 with status_history := db1.status_history.map (fun h =>
          if h.id == latest.id then
            { h with trigger_type := getTriggerType confidence, trigger_email_id := some emailId }
          else h) }
  | none => db1

/-- The return value of `processEmail`. -/
inductive ProcessResult where
  | unmatched (emailId : Nat) (classification : EmailClassification) (confidence : ℚ)
  | processed (emailId : Nat) (applicationId : Nat) (classification : EmailClassification)
      (confidence : ℚ) (statusUpdated : Bool) (newStatus : Option ApplicationStatus)
      (needsReview : Bool)
  | stepFailed
deriving DecidableEq, Repr

/-- The `processEmail` Inngest function for one fully-executed run: match,
classify, insert the email record, then either the unmatched branch (suggest
and stop) or the matched branch (read status, decide, conditionally update).
`t` is the wall-clock timestamp used for rows the database stamps with
NOW(); `stepFailed` models `.single()` throwing when the matched application
row is gone. -/
def processEmail (db : DB) (userId : Nat) (email : ParsedEmail)
    (modelOutcome : Except String ClassificationResult) (t : Nat) : DB × ProcessResult :=
  let matchResult := matchEmailToApplication db.applications userId email
  let classification := classifyEmail modelOutcome
  let step3 := stepCreateEmailRecord db userId email classification matchResult.applicationId
  let db1 := step3.1
  let emailRecord := step3.2
  match matchResult.applicationId with
  | none =>
      (stepCreateUnmatchedRecord db1 userId emailRecord.id,
       .unmatched emailRecord.id classification.type classification.confidence)
  | some appId =>
      match stepGetApplication db1 appId with
      | none => (db1, .stepFailed)
      | some application =>
          let transition :=
            getStatusTransition classification.type classification.confidence application.status
          let db2 :=
            match transition.shouldUpdate, transition.newStatus with
            | true, some ns =>
                stepUpdateApplicationStatus db1 appId ns classification.confidence emailRecord.id t
            | _, _ => db1
          (db2, .processed emailRecord.id appId classification.type classification.confidence
             transition.shouldUpdate transition.newStatus transition.needsReview)

/-! ### Helper lemmas about the Transition Engine -/

/-- When the category maps to a target that is not an allowed edge, the
invalid-transition branch is taken. -/
theorem getStatusTransition_invalid {classification : EmailClassification} {confidence : ℚ}
    {currentStatus targetStatus : ApplicationStatus}
    (hmap : CLASSIFICATION_TO_STATUS classification = some targetStatus)
    (hedge : targetStatus ∉ VALID_TRANSITIONS currentStatus) :
    getStatusTransition classification confidence currentStatus =
      { shouldUpdate := false, newStatus := none, reason := "Invalid transition",
        needsReview := true } := by
  simp [getStatusTransition, hmap, hedge]

/-- When the category maps to an allowed edge and confidence reaches the
review threshold, the auto-update branch is taken. -/
theorem getStatusTransition_auto {classification : EmailClassification} {confidence : ℚ}
    {currentStatus targetStatus : ApplicationStatus}
    (hmap : CLASSIFICATION_TO_STATUS classification = some targetStatus)
    (hedge : targetStatus ∈ VALID_TRANSITIONS currentStatus)
    (h7 : ¬ confidence < mkRat 7 10) :
    getStatusTransition classification confidence currentStatus =
      { shouldUpdate := true, newStatus := some targetStatus, reason := "Auto-updating",
        needsReview := decide (confidence < mkRat 9 10) } := by
  simp [getStatusTransition, CONFIDENCE_THRESHOLDS, hmap, hedge, h7]

/-- When the category maps to an allowed edge and confidence is below the
review threshold, the withhold branch is taken. -/
theorem getStatusTransition_low {classification : EmailClassification} {confidence : ℚ}
    {currentStatus targetStatus : ApplicationStatus}
    (hmap : CLASSIFICATION_TO_STATUS classification = some targetStatus)
    (hedge : targetStatus ∈ VALID_TRANSITIONS currentStatus)
    (h7 : confidence < mkRat 7 10) :
    getStatusTransition classification confidence currentStatus =
      { shouldUpdate := false, newStatus := some targetStatus,
        reason := "Confidence below threshold", needsReview := true } := by
  simp [getStatusTransition, CONFIDENCE_THRESHOLDS, hmap, hedge, h7]

/-! ### C1 -/

/-- C1: for every classification whose mapped target status is not a legal
outgoing edge of the current status, `getStatusTransition` returns
`shouldUpdate = false` and `needsReview = true`, for every confidence value
— high confidence never overrides an illegal edge. -/
theorem illegal_edge_never_applied (classification : EmailClassification) (confidence : ℚ)
    (currentStatus targetStatus : ApplicationStatus)
    (hmap : CLASSIFICATION_TO_STATUS classification = some targetStatus)
    (hedge : targetStatus ∉ VALID_TRANSITIONS currentStatus) :
    (getStatusTransition classification confidence currentStatus).shouldUpdate = false ∧
    (getStatusTransition classification confidence currentStatus).needsReview = true := by
  rw [getStatusTransition_invalid hmap hedge]
  exact ⟨rfl, rfl⟩

/-- C1 witness: spec scenario E — `interview-request` with confidence 0.95 on
a `rejected` application is withheld and flagged. -/
theorem illegal_edge_never_applied_witness :
    CLASSIFICATION_TO_STATUS EmailClassification.INTERVIEW_REQUEST =
      some ApplicationStatus.INTERVIEWING ∧
    ApplicationStatus.INTERVIEWING ∉ VALID_TRANSITIONS ApplicationStatus.REJECTED ∧
    ((getStatusTransition EmailClassification.INTERVIEW_REQUEST (mkRat 95 100)
        ApplicationStatus.REJECTED).shouldUpdate = false ∧
     (getStatusTransition EmailClassification.INTERVIEW_REQUEST (mkRat 95 100)
        ApplicationStatus.REJECTED).needsReview = true) :=
  ⟨by decide, by decide,
   illegal_edge_never_applied EmailClassification.INTERVIEW_REQUEST (mkRat 95 100)
     ApplicationStatus.REJECTED ApplicationStatus.INTERVIEWING (by decide) (by decide)⟩

/-! ### C2 -/

/-- C2: for a category mapping to a legal outgoing edge, confidence at least
0.9 yields a silent update (`shouldUpdate = true`, `needsReview = false`),
and confidence in [0.7, 0.9) yields a flagged update (`shouldUpdate = true`,
`needsReview = true`). -/
theorem legal_edge_confidence_gates (classification : EmailClassification) (confidence : ℚ)
    (currentStatus targetStatus : ApplicationStatus)
    (hmap : CLASSIFICATION_TO_STATUS classification = some targetStatus)
    (hedge : targetStatus ∈ VALID_TRANSITIONS currentStatus) :
    (mkRat 9 10 ≤ confidence →
      (getStatusTransition classification confidence currentStatus).shouldUpdate = true ∧
      (getStatusTransition classification confidence currentStatus).needsReview = false) ∧
    (mkRat 7 10 ≤ confidence → confidence < mkRat 9 10 →
      (getStatusTransition classification confidence currentStatus).shouldUpdate = true ∧
      (getStatusTransition classification confidence currentStatus).needsReview = true) := by
  constructor
  · intro h9
    have h79 : (mkRat 7 10 : ℚ) < mkRat 9 10 := by decide
    have h7 : ¬ confidence < mkRat 7 10 := not_lt.mpr (le_trans h79.le h9)
    rw [getStatusTransition_auto hmap hedge h7]
    refine ⟨rfl, ?_⟩
    simp [not_lt.mpr h9]
  · intro h7 h9
    have h7' : ¬ confidence < mkRat 7 10 := not_lt.mpr h7
    rw [getStatusTransition_auto hmap hedge h7']
    refine ⟨rfl, ?_⟩
    simp [h9]

/-- C2 witness: `interview-request` on an `applied` application at
confidence 0.95 (silent update) and 0.75 (flagged update). -/
theorem legal_edge_confidence_gates_witness :
    CLASSIFICATION_TO_STATUS EmailClassification.INTERVIEW_REQUEST =
      some ApplicationStatus.INTERVIEWING ∧
    ApplicationStatus.INTERVIEWING ∈ VALID_TRANSITIONS ApplicationStatus.APPLIED ∧
    ((getStatusTransition EmailClassification.INTERVIEW_REQUEST (mkRat 95 100)
        ApplicationStatus.APPLIED).shouldUpdate = true ∧
     (getStatusTransition EmailClassification.INTERVIEW_REQUEST (mkRat 95 100)
        ApplicationStatus.APPLIED).needsReview = false) ∧
    ((getStatusTransition EmailClassification.INTERVIEW_REQUEST (mkRat 75 100)
        ApplicationStatus.APPLIED).shouldUpdate = true ∧
     (getStatusTransition EmailClassification.INTERVIEW_REQUEST (mkRat 75 100)
        ApplicationStatus.APPLIED).needsReview = true) :=
  ⟨by decide, by decide,
   (legal_edge_confidence_gates EmailClassification.INTERVIEW_REQUEST (mkRat 95 100)
      ApplicationStatus.APPLIED ApplicationStatus.INTERVIEWING (by decide) (by decide)).1
     (by decide),
   (legal_edge_confidence_gates EmailClassification.INTERVIEW_REQUEST (mkRat 75 100)
      ApplicationStatus.APPLIED ApplicationStatus.INTERVIEWING (by decide) (by decide)).2
     (by decide) (by decide)⟩

/-! ### C3 -/

/-- C3 counterexample: the claim says every category at confidence below 0.7
comes back `shouldUpdate = false, needsReview = true`, but a category with no
mapped target status (here `generic-update` at confidence 0.5) takes the
no-op branch, which sets `needsReview = false`. -/
theorem low_confidence_claim_counterexample :
    (mkRat 1 2 : ℚ) < mkRat 7 10 ∧
    (getStatusTransition EmailClassification.GENERIC_UPDATE (mkRat 1 2)
        ApplicationStatus.APPLIED).shouldUpdate = false ∧
    (getStatusTransition EmailClassification.GENERIC_UPDATE (mkRat 1 2)
        ApplicationStatus.APPLIED).needsReview = false := by
  refine ⟨by decide, ?_, ?_⟩ <;> decide

/-- C3 amended: for every category that maps to some target status, every
current status and every confidence below 0.7, `getStatusTransition` returns
`shouldUpdate = false` and `needsReview = true` (whether the edge is legal or
not); categories mapping to no target instead return
`shouldUpdate = false, needsReview = false`. -/
theorem low_confidence_never_applied (classification : EmailClassification) (confidence : ℚ)
    (currentStatus targetStatus : ApplicationStatus)
    (hmap : CLASSIFICATION_TO_STATUS classification = some targetStatus)
    (h7 : confidence < mkRat 7 10) :
    (getStatusTransition classification confidence currentStatus).shouldUpdate = false ∧
    (getStatusTransition classification confidence currentStatus).needsReview = true := by
  by_cases hedge : targetStatus ∈ VALID_TRANSITIONS currentStatus
  · rw [getStatusTransition_low hmap hedge h7]
    exact ⟨rfl, rfl⟩
  · rw [getStatusTransition_invalid hmap hedge]
    exact ⟨rfl, rfl⟩

/-- C3 amended witness: `rejection` at confidence 0.5 on an `applied`
application is withheld and flagged. -/
theorem low_confidence_never_applied_witness :
    CLASSIFICATION_TO_STATUS EmailClassification.REJECTION = some ApplicationStatus.REJECTED ∧
    (mkRat 1 2 : ℚ) < mkRat 7 10 ∧
    ((getStatusTransition EmailClassification.REJECTION (mkRat 1 2)
        ApplicationStatus.APPLIED).shouldUpdate = false ∧
     (getStatusTransition EmailClassification.REJECTION (mkRat 1 2)
        ApplicationStatus.APPLIED).needsReview = true) :=
  ⟨by decide, by decide,
   low_confidence_never_applied EmailClassification.REJECTION (mkRat 1 2)
     ApplicationStatus.APPLIED ApplicationStatus.REJECTED (by decide) (by decide)⟩

/-! ### C6 -/

/-- C6 counterexample: the `trigger_type` written by the status-update step
cannot reflect `needsReview`.  At confidence 0.8 the decision is a flagged
update (`needsReview = true`) and at 0.95 a silent one
(`needsReview = false`), yet `getTriggerType` — a function of the confidence
alone — returns the same plain `email_auto` string in both cases; the code
has no needs-review trigger variant at all. -/
theorem trigger_reflects_review_counterexample :
    (getStatusTransition EmailClassification.INTERVIEW_REQUEST (mkRat 8 10)
        ApplicationStatus.APPLIED).shouldUpdate = true ∧
    (getStatusTransition EmailClassification.INTERVIEW_REQUEST (mkRat 8 10)
        ApplicationStatus.APPLIED).needsReview = true ∧
    (getStatusTransition EmailClassification.INTERVIEW_REQUEST (mkRat 95 100)
        ApplicationStatus.APPLIED).needsReview = false ∧
    getTriggerType (mkRat 8 10) = "email_auto" ∧
    getTriggerType (mkRat 95 100) = "email_auto" := by
  refine ⟨?_, ?_, ?_, ?_, ?_⟩ <;> decide

/-- C6 amended: whenever the Transition Engine decides to update
(`shouldUpdate = true`), the confidence is at least 0.7 and the trigger type
the Orchestrator records is therefore always the plain `email_auto`,
regardless of `needsReview`; the `email_manual` variant is unreachable on the
update path, and no needs-review trigger variant exists. -/
theorem applied_update_trigger_always_email_auto (classification : EmailClassification)
    (confidence : ℚ) (currentStatus : ApplicationStatus)
    (hupd : (getStatusTransition classification confidence currentStatus).shouldUpdate = true) :
    getTriggerType confidence = "email_auto" := by
  unfold getStatusTransition at hupd
  rcases hc : CLASSIFICATION_TO_STATUS classification with _ | targetStatus
  · rw [hc] at hupd
    simp at hupd
  · rw [hc] at hupd
    by_cases hedge : targetStatus ∈ VALID_TRANSITIONS currentStatus
    · simp only [if_pos hedge] at hupd
      by_cases h7 : confidence < CONFIDENCE_THRESHOLDS.FLAG_FOR_REVIEW
      · rw [if_pos h7] at hupd
        simp at hupd
      · unfold getTriggerType
        rw [if_pos (not_lt.mp h7)]
    · simp only [if_neg hedge] at hupd
      simp at hupd

/-- C6 amended witness: a flagged update at confidence 0.75 still records the
plain `email_auto` trigger. -/
theorem applied_update_trigger_always_email_auto_witness :
    (getStatusTransition EmailClassification.INTERVIEW_REQUEST (mkRat 75 100)
        ApplicationStatus.APPLIED).shouldUpdate = true ∧
    getTriggerType (mkRat 75 100) = "email_auto" :=
  ⟨by decide,
   applied_update_trigger_always_email_auto EmailClassification.INTERVIEW_REQUEST (mkRat 75 100)
     ApplicationStatus.APPLIED (by decide)⟩

/-- The status-update step never touches `application_emails`. -/
theorem stepUpdateApplicationStatus_emails (db : DB) (applicationId : Nat)
    (newStatus : ApplicationStatus) (confidence : ℚ) (emailId t : Nat) :
    (stepUpdateApplicationStatus db applicationId newStatus confidence emailId t).application_emails =
      db.application_emails := by
  unfold stepUpdateApplicationStatus
  dsimp only
  split <;> rfl

/-- The status-update step never touches `unmatched_emails`. -/
theorem stepUpdateApplicationStatus_unmatched (db : DB) (applicationId : Nat)
    (newStatus : ApplicationStatus) (confidence : ℚ) (emailId t : Nat) :
    (stepUpdateApplicationStatus db applicationId newStatus confidence emailId t).unmatched_emails =
      db.unmatched_emails := by
  unfold stepUpdateApplicationStatus
  dsimp only
  split <;> rfl

/-! ### C8 -/

/-- C8: `classifyEmail` never raises — it is total by construction — and on
any model-call failure it returns the safe default
(`generic-update`, confidence 0.5, a reasoning string saying classification
failed); the Orchestrator run with a failed model call still appends exactly
one auditable `application_emails` row. -/
theorem classify_failure_safe_default (err : String) (db : DB) (userId : Nat)
    (email : ParsedEmail) (t : Nat) :
    classifyEmail (Except.error err) =
      { type := EmailClassification.GENERIC_UPDATE, confidence := mkRat 1 2,
        reasoning := "Classification failed, defaulting to generic update",
        extractedData := none } ∧
    (processEmail db userId email (Except.error err) t).1.application_emails.length =
      db.application_emails.length + 1 := by
  constructor
  · rfl
  · unfold processEmail
    rcases hm : (matchEmailToApplication db.applications userId email).applicationId with _ | appId
    · simp only [hm, stepCreateUnmatchedRecord, stepCreateEmailRecord]
      simp
    · simp only [hm]
      rcases hg : stepGetApplication
          (stepCreateEmailRecord db userId email (classifyEmail (Except.error err))
            (some appId)).1 appId with _ | application
      · simp only [hg, stepCreateEmailRecord]
        simp
      · simp only [hg]
        rcases hupd : (getStatusTransition (classifyEmail (Except.error err)).type
            (classifyEmail (Except.error err)).confidence application.status).shouldUpdate
          with _ | _
        · simp [hupd, stepCreateEmailRecord]
        · rcases hns : (getStatusTransition (classifyEmail (Except.error err)).type
              (classifyEmail (Except.error err)).confidence application.status).newStatus
            with _ | ns
          · simp [hupd, hns, stepCreateEmailRecord]
          · simp [hupd, hns, stepUpdateApplicationStatus_emails, stepCreateEmailRecord]

/-! ### C4 -/

/-- C4 fixture: one tracked application at Acme in status `applied`. -/
def idemDb : DB :=
  { applications := [{ id := 10, user_id := 1, company_name := "Acme",
                       job_title := "Software Engineer",
                       status := ApplicationStatus.APPLIED, created_at := 100 }]
    application_emails := []
    unmatched_emails := []
    status_history := []
    nextId := 20 }

/-- C4 fixture: the same inbound message, redelivered unchanged. -/
def idemEmail : ParsedEmail :=
  { «from» := "recruiting@acme.com", fromName := none, subject := "", body := "b",
    receivedAt := 1000 }

/-- C4 fixture: a successful classification, identical on both deliveries. -/
def idemOutcome : Except String ClassificationResult :=
  .ok { type := EmailClassification.INTERVIEW_REQUEST, confidence := mkRat 95 100,
        reasoning := "scheduling language", extractedData := none }

/-- C4 fixture: the database after the first fully successful run. -/
def idemRun1 : DB := (processEmail idemDb 1 idemEmail idemOutcome 1000).1

/-- C4 fixture: the database after re-running the same message. -/
def idemRun2 : DB := (processEmail idemRun1 1 idemEmail idemOutcome 2000).1

/-- C4: re-running the Orchestrator for the same inbound message after a
prior fully successful run leaves the application status and history alone
(the now-illegal interviewing→interviewing edge is withheld) but INSERTS A
SECOND `application_emails` ROW: the email-record write is a plain insert
with no upsert-by-natural-key and no check-then-act guard — the event
payload carries no message identifier at all and the schema has no unique
constraint for one — so the claimed idempotence fails.  The spec's
"must use upsert-by-natural-key or check-then-act guards" is the stated
intent; the code does not implement it. -/
theorem rerun_duplicates_email_record :
    idemRun1.application_emails.length = 1 ∧
    idemRun2.application_emails.length = 2 ∧
    idemRun2.applications = idemRun1.applications ∧
    idemRun2.status_history = idemRun1.status_history := by
  refine ⟨?_, ?_, ?_, ?_⟩ <;> decide

/-! ### C5 -/

/-- C5 fixture: the application as the concurrent manual edit left it
(`withdrawn`), after the Orchestrator's `get-application` step had read
`applied`. -/
def guardEditedDb : DB :=
  { applications := [{ id := 10, user_id := 1, company_name := "Acme",
                       job_title := "Software Engineer",
                       status := ApplicationStatus.WITHDRAWN, created_at := 100 }]
    application_emails := []
    unmatched_emails := []
    status_history := [{ id := 15, application_id := 10,
                         from_status := some ApplicationStatus.APPLIED,
                         to_status := ApplicationStatus.WITHDRAWN, trigger_type := "manual",
                         trigger_email_id := none, created_at := 3 }]
    nextId := 20 }

/-- C5: the status-update step carries no optimistic guard.  The decision
computed from the previously read status `applied` (screening-invite at
confidence 0.95, update to `screening`) is applied by
`stepUpdateApplicationStatus` through
`UPDATE applications SET status WHERE id = …` — the WHERE clause never
re-checks that the row still holds the status read in `get-application` —
so the user's concurrent manual `withdrawn` edit is silently overwritten
with `screening` instead of being treated as a no-op and flagged. -/
theorem status_update_lacks_optimistic_guard :
    (getStatusTransition EmailClassification.SCREENING_INVITE (mkRat 95 100)
        ApplicationStatus.APPLIED).shouldUpdate = true ∧
    (getStatusTransition EmailClassification.SCREENING_INVITE (mkRat 95 100)
        ApplicationStatus.APPLIED).newStatus = some ApplicationStatus.SCREENING ∧
    (guardEditedDb.applications.map (fun a => a.status)) = [ApplicationStatus.WITHDRAWN] ∧
    ((stepUpdateApplicationStatus guardEditedDb 10 ApplicationStatus.SCREENING (mkRat 95 100)
        19 5).applications.map (fun a => a.status)) = [ApplicationStatus.SCREENING] := by
  refine ⟨?_, ?_, ?_, ?_⟩ <;> decide

/-! ### C7 -/

/-- Strategies 3–4 of `matchEmailToApplication` in isolation: extract a
company from the subject and fuzzy-match it, else report no match.  This is
what the matcher runs immediately after the direct domain match fails. -/
def fuzzyOrNoMatch (apps : List ApplicationRow) (userId : Nat) (email : ParsedEmail) :
    MatchResult :=
  let extractedCompany := extractCompanyFromSubject email.subject
  let fuzzyResult : Option MatchResult :=
    match extractedCompany with
    | some c =>
        match findApplicationByCompanyName apps userId c with
        | some m => some { applicationId := some m.id, companyName := some c,
                           confidence := mkRat 7 10, matchType := .fuzzy }
        | none => Option.none
    | none => Option.none
  match fuzzyResult with
  | some r => r
  | none =>
      { applicationId := Option.none, companyName := extractedCompany,
        confidence := 0, matchType := .none }

/-- C7 fixture: a tracked application at Facebook. -/
def aliasApps : List ApplicationRow :=
  [{ id := 10, user_id := 1, company_name := "Facebook", job_title := "Software Engineer",
     status := ApplicationStatus.APPLIED, created_at := 100 }]

/-- C7 fixture: an email from `meta.com`, a canonical corporate domain family
of Facebook in the design document's seed data. -/
def aliasEmail : ParsedEmail :=
  { «from» := "recruiter@meta.com", fromName := none, subject := "Greetings", body := "",
    receivedAt := 1000 }

/-- C7 counterexample: no domain-alias strategy exists.  A sender in the
`meta.com` domain family with a tracked `Facebook` application — the claim's
canonical-name alias case — produces no match at confidence 0 instead of the
Facebook application at confidence 0.85. -/
theorem domain_alias_match_counterexample :
    matchEmailToApplication aliasApps 1 aliasEmail =
      { applicationId := none, companyName := none, confidence := 0,
        matchType := MatchType.none } ∧
    (0 : ℚ) ≠ mkRat 85 100 := by
  refine ⟨?_, ?_⟩ <;> decide

/-- C7 amended: when ATS-aware extraction and the direct domain match both
fail, the Matcher proceeds directly to subject fuzzy matching (strategies
3–4); there is no domain-alias resolution step, no seeded alias table in the
schema, and no 0.85-confidence outcome. -/
theorem no_alias_step_falls_through_to_fuzzy (apps : List ApplicationRow) (userId : Nat)
    (email : ParsedEmail)
    (hats : extractCompanyFromATS email = none)
    (hdom : findApplicationByDomain apps userId (extractDomain email.«from») = none) :
    matchEmailToApplication apps userId email = fuzzyOrNoMatch apps userId email := by
  unfold matchEmailToApplication fuzzyOrNoMatch
  rw [hats, hdom]
  rfl

/-- C7 amended witness: for the alias fixture both earlier strategies fail and
the matcher's answer is exactly the fuzzy fall-through. -/
theorem no_alias_step_falls_through_to_fuzzy_witness :
    extractCompanyFromATS aliasEmail = none ∧
    findApplicationByDomain aliasApps 1 (extractDomain aliasEmail.«from») = none ∧
    matchEmailToApplication aliasApps 1 aliasEmail = fuzzyOrNoMatch aliasApps 1 aliasEmail :=
  ⟨by decide, by decide,
   no_alias_step_falls_through_to_fuzzy aliasApps 1 aliasEmail (by decide) (by decide)⟩

/-! ### C9 -/

/-- C9: when the Matcher finds no application, the Orchestrator appends one
`unmatched_emails` row with lifecycle status `pending` whose suggestions are
the ids of `getSuggestedApplications` (limit 5); those suggestions number at
most five, belong to the user, have one of the statuses APPLIED / SCREENING /
INTERVIEWING — all non-terminal (they keep outgoing edges) — and are sorted
most recently created first; the run then stops: applications and status
history are untouched, so the Transition Engine is never applied. -/
theorem unmatched_email_review_queue (db : DB) (userId : Nat) (email : ParsedEmail)
    (modelOutcome : Except String ClassificationResult) (t : Nat)
    (hnone : (matchEmailToApplication db.applications userId email).applicationId = none) :
    (processEmail db userId email modelOutcome t).1.unmatched_emails =
      db.unmatched_emails ++
        [{ id := db.nextId + 1, user_id := userId, email_id := db.nextId,
           suggested_application_ids :=
             (getSuggestedApplications db.applications userId 5).map (fun a => a.id),
           status := "pending" }] ∧
    (getSuggestedApplications db.applications userId 5).length ≤ 5 ∧
    (∀ a ∈ getSuggestedApplications db.applications userId 5,
       a.user_id = userId ∧ a.status ∈ suggestedStatuses ∧ VALID_TRANSITIONS a.status ≠ []) ∧
    List.Sorted (fun a b : ApplicationRow => b.created_at ≤ a.created_at)
      (getSuggestedApplications db.applications userId 5) ∧
    (processEmail db userId email modelOutcome t).1.applications = db.applications ∧
    (processEmail db userId email modelOutcome t).1.status_history = db.status_history := by
  have hsugg : ∀ a ∈ getSuggestedApplications db.applications userId 5,
      a.user_id = userId ∧ a.status ∈ suggestedStatuses ∧ VALID_TRANSITIONS a.status ≠ [] := by
    intro a ha
    unfold getSuggestedApplications at ha
    have ha2 := List.mem_of_mem_take ha
    have ha3 : a ∈ db.applications.filter (fun a => a.user_id == userId &&
        suggestedStatuses.contains a.status) :=
      (List.perm_insertionSort _ _).mem_iff.mp ha2
    have ha4 := List.of_mem_filter ha3
    rw [Bool.and_eq_true] at ha4
    have hu : a.user_id = userId := by simpa using ha4.1
    have hst : a.status ∈ suggestedStatuses := by
      have := ha4.2
      simpa using this
    refine ⟨hu, hst, ?_⟩
    have hst2 : a.status = APPLIED ∨ a.status = SCREENING ∨ a.status = INTERVIEWING := by
      simpa [suggestedStatuses] using hst
    rcases hst2 with h | h | h <;> rw [h] <;> decide
  have hsorted : List.Sorted (fun a b : ApplicationRow => b.created_at ≤ a.created_at)
      (getSuggestedApplications db.applications userId 5) := by
    haveI : IsTotal ApplicationRow (fun a b => b.created_at ≤ a.created_at) :=
      ⟨fun a b => le_total b.created_at a.created_at⟩
    haveI : IsTrans ApplicationRow (fun a b => b.created_at ≤ a.created_at) :=
      ⟨fun _ _ _ hab hbc => le_trans hbc hab⟩
    have hs := List.sorted_insertionSort (fun a b : ApplicationRow => b.created_at ≤ a.created_at)
      (db.applications.filter (fun a => a.user_id == userId && suggestedStatuses.contains a.status))
    exact List.Pairwise.sublist (List.take_sublist _ _) hs
  refine ⟨?_, ?_, hsugg, hsorted, ?_, ?_⟩
  · unfold processEmail
    dsimp only
    rw [hnone]
    rfl
  · exact List.length_take_le _ _
  · unfold processEmail
    dsimp only
    rw [hnone]
    rfl
  · unfold processEmail
    dsimp only
    rw [hnone]
    rfl

/-- C9 fixture: seven applications — six of user 1 (four in suggestible
statuses plus one `offer` and one `rejected`) and one of another user. -/
def reviewDb : DB :=
  { applications :=
      [{ id := 1, user_id := 1, company_name := "Acme", job_title := "SWE",
         status := ApplicationStatus.APPLIED, created_at := 10 },
       { id := 2, user_id := 1, company_name := "Beta", job_title := "SWE",
         status := ApplicationStatus.SCREENING, created_at := 60 },
       { id := 3, user_id := 1, company_name := "Gamma", job_title := "SWE",
         status := ApplicationStatus.OFFER, created_at := 70 },
       { id := 4, user_id := 1, company_name := "Delta", job_title := "SWE",
         status := ApplicationStatus.INTERVIEWING, created_at := 40 },
       { id := 5, user_id := 1, company_name := "Epsilon", job_title := "SWE",
         status := ApplicationStatus.REJECTED, created_at := 80 },
       { id := 6, user_id := 1, company_name := "Theta", job_title := "SWE",
         status := ApplicationStatus.APPLIED, created_at := 50 },
       { id := 7, user_id := 2, company_name := "Acme", job_title := "SWE",
         status := ApplicationStatus.APPLIED, created_at := 90 }]
    application_emails := []
    unmatched_emails := []
    status_history := []
    nextId := 40 }

/-- C9 fixture: an email no strategy can match for user 1. -/
def reviewEmail : ParsedEmail :=
  { «from» := "news@zzz.example", fromName := none, subject := "Greetings", body := "",
    receivedAt := 2000 }

/-- C9 fixture: the classification outcome of the unmatched run. -/
def reviewOutcome : Except String ClassificationResult :=
  .ok { type := EmailClassification.GENERIC_UPDATE, confidence := mkRat 6 10,
        reasoning := "newsletter", extractedData := none }

/-- C9 witness: the fixture email is unmatched, and the run appends the
pending review-queue row with the ids of the (at most five, recency-ordered,
suggestible-status) applications while leaving applications and history
untouched. -/
theorem unmatched_email_review_queue_witness :
    (matchEmailToApplication reviewDb.applications 1 reviewEmail).applicationId = none ∧
    ((processEmail reviewDb 1 reviewEmail reviewOutcome 3000).1.unmatched_emails =
      reviewDb.unmatched_emails ++
        [{ id := reviewDb.nextId + 1, user_id := 1, email_id := reviewDb.nextId,
           suggested_application_ids :=
             (getSuggestedApplications reviewDb.applications 1 5).map (fun a => a.id),
           status := "pending" }] ∧
    (getSuggestedApplications reviewDb.applications 1 5).length ≤ 5 ∧
    (∀ a ∈ getSuggestedApplications reviewDb.applications 1 5,
       a.user_id = 1 ∧ a.status ∈ suggestedStatuses ∧ VALID_TRANSITIONS a.status ≠ []) ∧
    List.Sorted (fun a b : ApplicationRow => b.created_at ≤ a.created_at)
      (getSuggestedApplications reviewDb.applications 1 5) ∧
    (processEmail reviewDb 1 reviewEmail reviewOutcome 3000).1.applications =
      reviewDb.applications ∧
    (processEmail reviewDb 1 reviewEmail reviewOutcome 3000).1.status_history =
      reviewDb.status_history) :=
  ⟨by decide,
   unmatched_email_review_queue reviewDb 1 reviewEmail reviewOutcome 3000 (by decide)⟩

/-! ### C10 -/

/-- A sender address without `@` has no domain suffix. -/
theorem lastAtSuffix_eq_none (l : List Char) (h : l.all (fun c => c != '@') = true) :
    lastAtSuffix l = none := by
  induction l with
  | nil => rfl
  | cons c rest ih =>
      rw [List.all_cons, Bool.and_eq_true] at h
      unfold lastAtSuffix
      rw [ih h.2]
      have hc : (c == '@') = false := by
        have := h.1
        simpa [bne] using this
      simp [hc]

/-- `ILIKE '%'` accepts every string. -/
theorem ilike_single_percent (s : List Char) : ilikeMatch ['%'] s = true := by
  induction s with
  | nil => rfl
  | cons c t ih =>
      have h : ilikeMatch ['%'] (c :: t) = (ilikeMatch [] (c :: t) || ilikeMatch ['%'] t) := rfl
      rw [h, ih]
      simp

/-- `ILIKE '%%'` — the pattern built from the empty company slug — accepts
every string. -/
theorem ilike_double_percent (s : List Char) : ilikeMatch "%%".toList s = true := by
  show ilikeMatch ['%', '%'] s = true
  cases s with
  | nil => rfl
  | cons c t =>
      have h : ilikeMatch ['%', '%'] (c :: t) =
          (ilikeMatch ['%'] (c :: t) || (List.tails t).any (fun u => ilikeMatch ['%'] u)) := rfl
      rw [h, ilike_single_percent]
      simp

/-- C10: for a sender address containing no `@`, `extractDomain` returns the
empty string; the empty domain survives the ATS-domain skip, splits to the
empty company slug, and the direct-domain query's pattern degenerates to
`'%%'`, which ILIKE-matches every tracked company name — so for a user with
at least one application the Matcher returns the most recently created one
with confidence 0.95 and matchType `domain` instead of reporting no match. -/
theorem no_at_sender_matches_most_recent (apps : List ApplicationRow) (userId : Nat)
    (email : ParsedEmail)
    (hat : email.«from».toList.all (fun c => c != '@') = true)
    (hne : apps.filter (fun a => a.user_id == userId) ≠ []) :
    extractDomain email.«from» = "" ∧
    ∃ m, (sortByCreatedDesc (apps.filter (fun a => a.user_id == userId))).head? = some m ∧
      (∀ a ∈ apps.filter (fun a => a.user_id == userId), a.created_at ≤ m.created_at) ∧
      matchEmailToApplication apps userId email =
        { applicationId := some m.id, companyName := some m.company_name,
          confidence := mkRat 95 100, matchType := MatchType.domain } := by
  have hdom : extractDomain email.«from» = "" := by
    unfold extractDomain
    rw [lastAtSuffix_eq_none _ hat]
  have hats : extractCompanyFromATS email = none := by
    unfold extractCompanyFromATS
    rw [hdom]
    rfl
  have h0 : findApplicationByDomain apps userId "" =
      (sortByCreatedDesc (apps.filter (fun a => a.user_id == userId &&
        ilikeMatch "%%".toList a.company_name.toList))).head? := rfl
  have hfil : apps.filter (fun a => a.user_id == userId &&
        ilikeMatch "%%".toList a.company_name.toList) =
      apps.filter (fun a => a.user_id == userId) := by
    apply List.filter_congr
    intro a _
    rw [ilike_double_percent, Bool.and_true]
  have hfd : findApplicationByDomain apps userId "" =
      (sortByCreatedDesc (apps.filter (fun a => a.user_id == userId))).head? := by
    rw [h0, hfil]
  refine ⟨hdom, ?_⟩
  cases hL : sortByCreatedDesc (apps.filter (fun a => a.user_id == userId)) with
  | nil =>
      exfalso
      have hperm := List.perm_insertionSort
        (fun a b : ApplicationRow => b.created_at ≤ a.created_at)
        (apps.filter (fun a => a.user_id == userId))
      unfold sortByCreatedDesc at hL
      rw [hL] at hperm
      exact hne (List.perm_nil.mp hperm.symm)
  | cons m rest =>
      refine ⟨m, rfl, ?_, ?_⟩
      · haveI : IsTotal ApplicationRow (fun a b => b.created_at ≤ a.created_at) :=
          ⟨fun a b => le_total b.created_at a.created_at⟩
        haveI : IsTrans ApplicationRow (fun a b => b.created_at ≤ a.created_at) :=
          ⟨fun _ _ _ hab hbc => le_trans hbc hab⟩
        have hs := List.sorted_insertionSort
          (fun a b : ApplicationRow => b.created_at ≤ a.created_at)
          (apps.filter (fun a => a.user_id == userId))
        have hperm := List.perm_insertionSort
          (fun a b : ApplicationRow => b.created_at ≤ a.created_at)
          (apps.filter (fun a => a.user_id == userId))
        unfold sortByCreatedDesc at hL
        rw [hL] at hs hperm
        intro a ha
        have ha2 : a ∈ m :: rest := hperm.symm.subset ha
        rcases List.mem_cons.mp ha2 with h | h
        · rw [h]
        · exact (List.sorted_cons.mp hs).1 a h
      · have hsome : findApplicationByDomain apps userId "" = some m := by
          rw [hfd, hL]
          rfl
        unfold matchEmailToApplication
        dsimp only
        rw [hats, hdom, hsome]

/-- C10 fixture: two applications of user 1; id 11 is the more recent. -/
def noAtApps : List ApplicationRow :=
  [{ id := 10, user_id := 1, company_name := "Acme", job_title := "SWE",
     status := ApplicationStatus.APPLIED, created_at := 100 },
   { id := 11, user_id := 1, company_name := "Beta", job_title := "QA",
     status := ApplicationStatus.OFFER, created_at := 200 }]

/-- C10 fixture: an inbound email whose sender field has no `@`. -/
def noAtEmail : ParsedEmail :=
  { «from» := "mailer-daemon", fromName := none, subject := "Greetings", body := "",
    receivedAt := 7 }

/-- C10 witness: the malformed sender yields the empty domain and the matcher
hands back the most recent application (Beta, id 11) at confidence 0.95 as a
`domain` match. -/
theorem no_at_sender_matches_most_recent_witness :
    noAtEmail.«from».toList.all (fun c => c != '@') = true ∧
    noAtApps.filter (fun a => a.user_id == 1) ≠ [] ∧
    (extractDomain noAtEmail.«from» = "" ∧
     ∃ m, (sortByCreatedDesc (noAtApps.filter (fun a => a.user_id == 1))).head? = some m ∧
       (∀ a ∈ noAtApps.filter (fun a => a.user_id == 1), a.created_at ≤ m.created_at) ∧
       matchEmailToApplication noAtApps 1 noAtEmail =
         { applicationId := some m.id, companyName := some m.company_name,
           confidence := mkRat 95 100, matchType := MatchType.domain }) :=
  ⟨by decide, by decide,
   no_at_sender_matches_most_recent noAtApps 1 noAtEmail (by decide) (by decide)⟩

end ApplyFlow
